import Mathlib

/-!
Verification of the SVG sheet splitter (src/app/src/assets/icons/split-icons.py).

The script reads a text file, splits it into lines, and scans the lines with
three mutable variables: `current_filename` (an `Option`; the Python value is
`None` or a regex capture, and a capture is never the empty string, so Python
truthiness coincides with `isSome`), `current_svg` (a list of buffered lines)
and `in_svg` (a flag).  Each completed block causes a file write and a console
print.  We embed lines as `List Char`, the scanner as a pure state-passing
function, and the side effects as an explicit trace of `Effect` values.
-/

set_option autoImplicit false

namespace SplitIcons

/-- Characters of a string literal, used to write `List Char` constants. -/
def chars (s : String) : List Char := s.data

/-- Tests whether `pat` is an initial segment of `s`. -/
def startsL : List Char → List Char → Bool
  | _, [] => true
  | [], _ :: _ => false
  | c :: s, p :: ps => c == p && startsL s ps

/-- Tests whether `pat` occurs as a contiguous substring of `s`
(the embedding of Python's `pat in line`). -/
def subL : List Char → List Char → Bool
  | [], pat => startsL [] pat
  | c :: t, pat => startsL (c :: t) pat || subL t pat

/-- Index of the first occurrence of `pat` in `s` (the embedding of Python's
`line.index(pat)`; the script only calls it when the pattern is present). -/
def idxSub : List Char → List Char → Nat
  | [], _ => 0
  | c :: t, pat => if startsL (c :: t) pat then 0 else idxSub t pat + 1

/-- Whitespace characters matched by the regex class used in the marker
pattern (the ASCII ones; the input is ASCII markup). -/
def wsChar (c : Char) : Bool :=
  c == ' ' || c == '\t' || c == '\n' || c == '\r' || c == '\x0b' || c == '\x0c'

/-- Length of the maximal run of whitespace at the head of `s`. -/
def leadingWs : List Char → Nat
  | [] => 0
  | c :: t => if wsChar c then leadingWs t + 1 else 0

/-- Literal pieces of the marker regex and of the tag tests. -/
def commentOpenLit : List Char := chars "<!--"

/-- Literal dot-svg suffix required of a captured filename. -/
def svgExtLit : List Char := chars ".svg"

/-- Literal closing delimiter of the marker comment. -/
def arrowCloseLit : List Char := chars "-->"

/-- Opening tag text tested by the script. -/
def svgOpenTag : List Char := chars "<svg"

/-- Closing tag text tested by the script. -/
def svgCloseTag : List Char := chars "</svg>"

/-- Tests whether `s` ends with `pat`. -/
def endsIn (s pat : List Char) : Bool :=
  decide (pat.length ≤ s.length) && startsL (s.drop (s.length - pat.length)) pat

/-- Recognizer for the regex tail after the capture group: whitespace
followed by the closing comment delimiter (further text may follow). -/
def tailMatch : List Char → Bool
  | [] => false
  | c :: t => startsL (c :: t) arrowCloseLit || (wsChar c && tailMatch t)

/-- Greedy capture-group search of the marker regex at a fixed start: try
group lengths from `k` downward; a group is a nonempty run of non-newline
characters followed by the literal dot-svg suffix, after which the regex
tail must match.  This mirrors the backtracking order of the regex engine,
where the dot-plus part prefers the longest match. -/
def grpTry (s : List Char) : Nat → Option (List Char)
  | 0 => none
  | Nat.succ k =>
    let g := s.take (k + 1)
    if decide (5 ≤ k + 1) && endsIn g svgExtLit
        && (g.take (g.length - 4)).all (fun c => !(c == '\n'))
        && tailMatch (s.drop (k + 1)) then
      some g
    else
      grpTry s k

/-- Greedy whitespace consumption between the comment opener and the capture
group: try `w` whitespace characters first, backtracking downward, running
the group search on the remainder.  This mirrors the regex engine, where
the whitespace star prefers the longest run. -/
def wsTry (u : List Char) : Nat → Option (List Char)
  | 0 => grpTry u u.length
  | Nat.succ w =>
    match grpTry (u.drop (w + 1)) (u.length - (w + 1)) with
    | some g => some g
    | none => wsTry u w

/-- Attempt to match the whole marker regex at the start of `s`, returning
the capture group on success. -/
def matchMarkerAt (s : List Char) : Option (List Char) :=
  if startsL s commentOpenLit then
    wsTry (s.drop 4) (leadingWs (s.drop 4))
  else
    none

/-- Leftmost search for the marker regex over the line, returning the
captured filename of the first match (the embedding of the script's
regex search for the filename comment). -/
def findMarker : List Char → Option (List Char)
  | [] => none
  | c :: t =>
    match matchMarkerAt (c :: t) with
    | some g => some g
    | none => findMarker t

/-- Scanner state: the three variables threaded through the loop. -/
structure ScanState where
  current_filename : Option (List Char)
  current_svg : List (List Char)
  in_svg : Bool
  deriving DecidableEq, Repr

/-- State at the top of the script, before any line is processed. -/
def initState : ScanState :=
  { current_filename := none, current_svg := [], in_svg := false }

/-- Observable side effects of the script: file writes and console prints. -/
inductive Effect where
  | fileWrite (fname content : List Char)
  | consolePrint (msg : List Char)
  deriving DecidableEq, Repr

/-- Console message printed after each write. -/
def createdMsg (fname : List Char) : List Char := chars "Created: " ++ fname

/-- Fixed completion message printed after the loop. -/
def finalMsg : List Char := chars "\nAll icons extracted successfully!"

/-- Buffered lines joined with newline separators (Python's newline join). -/
def joinLines : List (List Char) → List Char
  | [] => []
  | [l] => l
  | l :: l' :: ls => l ++ '\n' :: joinLines (l' :: ls)

/-- One iteration of the scanning loop.  The branch structure follows the
script: first the marker-regex test (which unconditionally overwrites the
filename on a match, and on a same-line opening tag buffers the line from
the tag's index onward), then the opening-tag test guarded by a pending
filename and a closed block, then the collection branch.  In the collection
branch the script indexes the filename without a check; that point is
unreachable from `initState` (the flag is only set with a filename pending),
so the embedding reads it with a default. -/
def processLine (st : ScanState) (line : List Char) : ScanState × List Effect :=
  match findMarker line with
  | some fname =>
    if subL line svgOpenTag then
      let svgPart := line.drop (idxSub line svgOpenTag)
      if subL line svgCloseTag then
        ({ current_filename := none, current_svg := [], in_svg := false },
         [Effect.fileWrite fname svgPart, Effect.consolePrint (createdMsg fname)])
      else
        ({ current_filename := some fname, current_svg := [svgPart], in_svg := true }, [])
    else
      ({ current_filename := some fname, current_svg := st.current_svg,
         in_svg := st.in_svg }, [])
  | none =>
    if subL line svgOpenTag && st.current_filename.isSome && !st.in_svg then
      if subL line svgCloseTag then
        ({ current_filename := none, current_svg := [], in_svg := false },
         [Effect.fileWrite (st.current_filename.getD []) (joinLines [line]),
          Effect.consolePrint (createdMsg (st.current_filename.getD []))])
      else
        ({ current_filename := st.current_filename, current_svg := [line], in_svg := true }, [])
    else if st.in_svg then
      if subL line svgCloseTag then
        ({ current_filename := none, current_svg := [], in_svg := false },
         [Effect.fileWrite (st.current_filename.getD [])
            (joinLines (st.current_svg ++ [line])),
          Effect.consolePrint (createdMsg (st.current_filename.getD []))])
      else
        ({ current_filename := st.current_filename,
           current_svg := st.current_svg ++ [line], in_svg := true }, [])
    else
      (st, [])

/-- Run the loop over a list of lines from a given state, returning the final
state and the concatenated effect trace. -/
def runFrom : ScanState → List (List Char) → ScanState × List Effect
  | st, [] => (st, [])
  | st, l :: ls =>
    ((runFrom (processLine st l).1 ls).1,
     (processLine st l).2 ++ (runFrom (processLine st l).1 ls).2)

/-- Full effect trace of a run of the script on the given lines: the loop's
trace followed by the fixed completion print. -/
def programTrace (ls : List (List Char)) : List Effect :=
  (runFrom initState ls).2 ++ [Effect.consolePrint finalMsg]

/-- File-write events of a trace, in order, as name-content pairs. -/
def writesOf (es : List Effect) : List (List Char × List Char) :=
  es.filterMap fun e =>
    match e with
    | Effect.fileWrite f c => some (f, c)
    | Effect.consolePrint _ => none

/-- Console-print events of a trace, in order. -/
def consoleOf (es : List Effect) : List (List Char) :=
  es.filterMap fun e =>
    match e with
    | Effect.fileWrite _ _ => none
    | Effect.consolePrint m => some m

/-- File writes performed by a full run of the script. -/
def writesRun (ls : List (List Char)) : List (List Char × List Char) :=
  writesOf (programTrace ls)

/-! Well-formed marker-and-block segments, the shapes the script is written
for.  A block may sit entirely on its marker's line, may open on the marker's
line and close later, or may open on a line after the marker. -/

/-- Shape of one SVG block relative to its marker line. -/
inductive BlockForm where
  /-- The marker line itself holds the whole block: the text from the opening
  tag onward. -/
  | sameLine (b : List Char)
  /-- The marker line holds no tag; the whole block is the next line, which
  holds both the opening and the closing tag. -/
  | oneLineAfter (b : List Char)
  /-- The marker line holds the opening tag (text `b0` from the tag onward);
  the block continues over `body` and closes on line `c`. -/
  | spanFromMarker (b0 : List Char) (body : List (List Char)) (c : List Char)
  /-- The marker line holds no tag; the block opens on line `o`, continues
  over `body` and closes on line `c`. -/
  | multi (o : List Char) (body : List (List Char)) (c : List Char)
  deriving DecidableEq, Repr

/-- Canonical marker comment line for a filename. -/
def markerLineFor (f : List Char) : List Char :=
  chars "<!-- " ++ f ++ chars " -->"

/-- Lines contributed to the source text by one marker-and-block pair. -/
def segLines : List Char × BlockForm → List (List Char)
  | (f, BlockForm.sameLine b) => [markerLineFor f ++ b]
  | (f, BlockForm.oneLineAfter b) => [markerLineFor f, b]
  | (f, BlockForm.spanFromMarker b0 body c) =>
      (markerLineFor f ++ b0) :: (body ++ [c])
  | (f, BlockForm.multi o body c) =>
      markerLineFor f :: o :: (body ++ [c])

/-- Text of the block captured by the scanner for one pair: the tag-onward
text of the first line of the block, then the further lines, joined with
newlines. -/
def blockText : BlockForm → List Char
  | BlockForm.sameLine b => b
  | BlockForm.oneLineAfter b => joinLines [b]
  | BlockForm.spanFromMarker b0 body c => joinLines (b0 :: (body ++ [c]))
  | BlockForm.multi o body c => joinLines (o :: (body ++ [c]))

/-- Well-formedness of one pair: the marker line is recognized by the regex
and captures exactly the filename, the opening tag of the block is the first
one on its line, no inner line of the block carries a marker or a premature
closing tag, and the closing line carries the closing tag. -/
def segWf : List Char × BlockForm → Bool
  | (f, BlockForm.sameLine b) =>
      decide (findMarker (markerLineFor f ++ b) = some f) &&
      decide (idxSub (markerLineFor f ++ b) svgOpenTag = (markerLineFor f).length) &&
      subL (markerLineFor f ++ b) svgOpenTag &&
      subL (markerLineFor f ++ b) svgCloseTag
  | (f, BlockForm.oneLineAfter b) =>
      decide (findMarker (markerLineFor f) = some f) &&
      !subL (markerLineFor f) svgOpenTag &&
      decide (findMarker b = none) &&
      subL b svgOpenTag &&
      subL b svgCloseTag
  | (f, BlockForm.spanFromMarker b0 body c) =>
      decide (findMarker (markerLineFor f ++ b0) = some f) &&
      decide (idxSub (markerLineFor f ++ b0) svgOpenTag = (markerLineFor f).length) &&
      subL (markerLineFor f ++ b0) svgOpenTag &&
      !subL (markerLineFor f ++ b0) svgCloseTag &&
      body.all (fun l => decide (findMarker l = none) && !subL l svgCloseTag) &&
      decide (findMarker c = none) &&
      subL c svgCloseTag
  | (f, BlockForm.multi o body c) =>
      decide (findMarker (markerLineFor f) = some f) &&
      !subL (markerLineFor f) svgOpenTag &&
      decide (findMarker o = none) &&
      subL o svgOpenTag &&
      !subL o svgCloseTag &&
      body.all (fun l => decide (findMarker l = none) && !subL l svgCloseTag) &&
      decide (findMarker c = none) &&
      subL c svgCloseTag

/-- Source text consisting of the given marker-and-block pairs in order. -/
def sourceLines (ps : List (List Char × BlockForm)) : List (List Char) :=
  (ps.map segLines).flatten

/-! Spec-side notions needed to state the claims that compare the code's
behaviour with the specification's words. -/

/-- Content the specification asserts for a same-line block, following the
claim's words rather than the code: the substring of the line from the
opening tag through the closing tag inclusive. -/
def specTagToTagText (l : List Char) : List Char :=
  (l.drop (idxSub l svgOpenTag)).take
    (idxSub l svgCloseTag + svgCloseTag.length - idxSub l svgOpenTag)

/-- Literal reading of the invariant claim's history condition: an opening
tag has occurred on a processed line and no closing tag has occurred since. -/
def openUnclosed (ls : List (List Char)) : Bool :=
  ls.foldl
    (fun b l =>
      if subL l svgCloseTag then false
      else if subL l svgOpenTag then true
      else b)
    false

/-! Path model for the output-directory safety claim.  The script joins the
output directory with the captured filename; paths are modelled as lists of
slash-separated components, with the usual resolution of dot and dot-dot
components. -/

/-- Components of a path string, split on slashes. -/
def splitComps : List Char → List (List Char)
  | [] => [[]]
  | c :: t =>
    if c == '/' then [] :: splitComps t
    else
      match splitComps t with
      | comp :: rest => (c :: comp) :: rest
      | [] => [[c]]

/-- Resolve dot and dot-dot components over an accumulator of resolved
components, as the operating system resolves the written path. -/
def normAux (acc : List (List Char)) : List (List Char) → List (List Char)
  | [] => acc
  | c :: cs =>
    if c = chars ".." then normAux acc.dropLast cs
    else if c = chars "." ∨ c = ([] : List Char) then normAux acc cs
    else normAux (acc ++ [c]) cs

/-- Resolved components of a path. -/
def normPath (p : List (List Char)) : List (List Char) := normAux [] p

/-- Tests whether the component list `d` is an initial segment of `p`. -/
def leadsWith : List (List Char) → List (List Char) → Bool
  | _, [] => true
  | [], _ :: _ => false
  | x :: p, d :: ds => x == d && leadsWith p ds

/-- Embedding of the script's path join of the output directory with the
captured filename: an absolute filename replaces the directory, any other
filename is appended to it. -/
def joinedPath (dir : List (List Char)) (f : List Char) : List (List Char) :=
  if startsL f (chars "/") then splitComps f else dir ++ splitComps f

/-- Tests whether a path lies inside a directory once both are resolved. -/
def withinDir (dir p : List (List Char)) : Bool :=
  leadsWith (normPath p) (normPath dir)

/-! Filesystem model for the idempotence claim: a map from filenames to file
contents, updated by each write in order (the script opens files in
overwrite mode). -/

/-- Apply a list of writes to a filesystem in order, each overwriting. -/
def applyW (fs : List Char → Option (List Char))
    (ws : List (List Char × List Char)) : List Char → Option (List Char) :=
  ws.foldl (fun g p => Function.update g p.1 (some p.2)) fs

/-- Content of the last write to `fn` in the list, if any. -/
def lastMatch : List (List Char × List Char) → List Char → Option (List Char)
  | [], _ => none
  | p :: ws, fn =>
    match lastMatch ws fn with
    | some c => some c
    | none => if fn = p.1 then some p.2 else none

/-! Branch lemmas for `processLine`, one per reachable branch of the loop. -/

theorem processLine_marker_plain {line f : List Char} (st : ScanState)
    (hm : findMarker line = some f) (ho : subL line svgOpenTag = false) :
    processLine st line =
      ({ current_filename := some f, current_svg := st.current_svg,
         in_svg := st.in_svg }, []) := by
  simp [processLine, hm, ho]

theorem processLine_marker_open {line f : List Char} (st : ScanState)
    (hm : findMarker line = some f) (ho : subL line svgOpenTag = true)
    (hc : subL line svgCloseTag = false) :
    processLine st line =
      ({ current_filename := some f,
         current_svg := [line.drop (idxSub line svgOpenTag)], in_svg := true }, []) := by
  simp [processLine, hm, ho, hc]

theorem processLine_marker_closed {line f : List Char} (st : ScanState)
    (hm : findMarker line = some f) (ho : subL line svgOpenTag = true)
    (hc : subL line svgCloseTag = true) :
    processLine st line =
      (initState,
       [Effect.fileWrite f (line.drop (idxSub line svgOpenTag)),
        Effect.consolePrint (createdMsg f)]) := by
  simp [processLine, hm, ho, hc, initState]

theorem processLine_open {line f : List Char} (st : ScanState)
    (hm : findMarker line = none) (ho : subL line svgOpenTag = true)
    (hf : st.current_filename = some f) (hin : st.in_svg = false)
    (hc : subL line svgCloseTag = false) :
    processLine st line =
      ({ current_filename := some f, current_svg := [line], in_svg := true }, []) := by
  simp [processLine, hm, ho, hf, hin, hc]

theorem processLine_open_closed {line f : List Char} (st : ScanState)
    (hm : findMarker line = none) (ho : subL line svgOpenTag = true)
    (hf : st.current_filename = some f) (hin : st.in_svg = false)
    (hc : subL line svgCloseTag = true) :
    processLine st line =
      (initState,
       [Effect.fileWrite f (joinLines [line]),
        Effect.consolePrint (createdMsg f)]) := by
  simp [processLine, hm, ho, hf, hin, hc, initState]

theorem processLine_collect {line : List Char} (st : ScanState)
    (hm : findMarker line = none) (hin : st.in_svg = true)
    (hc : subL line svgCloseTag = false) :
    processLine st line =
      ({ current_filename := st.current_filename,
         current_svg := st.current_svg ++ [line], in_svg := true }, []) := by
  simp [processLine, hm, hin, hc]

theorem processLine_close {line : List Char} (st : ScanState)
    (hm : findMarker line = none) (hin : st.in_svg = true)
    (hc : subL line svgCloseTag = true) :
    processLine st line =
      (initState,
       [Effect.fileWrite (st.current_filename.getD [])
          (joinLines (st.current_svg ++ [line])),
        Effect.consolePrint (createdMsg (st.current_filename.getD []))]) := by
  simp [processLine, hm, hin, hc, initState]

theorem processLine_idle {line : List Char} (st : ScanState)
    (hm : findMarker line = none) (hf : st.current_filename = none)
    (hin : st.in_svg = false) :
    processLine st line = (st, []) := by
  simp [processLine, hm, hf, hin]

theorem processLine_skip {line : List Char} (st : ScanState)
    (hm : findMarker line = none) (ho : subL line svgOpenTag = false)
    (hin : st.in_svg = false) :
    processLine st line = (st, []) := by
  simp [processLine, hm, ho, hin]

/-! Run lemmas. -/

@[simp]
theorem runFrom_nil (st : ScanState) : runFrom st [] = (st, []) := rfl

theorem runFrom_cons (st : ScanState) (l : List Char) (ls : List (List Char)) :
    runFrom st (l :: ls) =
      ((runFrom (processLine st l).1 ls).1,
       (processLine st l).2 ++ (runFrom (processLine st l).1 ls).2) := rfl

theorem runFrom_append (xs ys : List (List Char)) (st : ScanState) :
    runFrom st (xs ++ ys) =
      ((runFrom (runFrom st xs).1 ys).1,
       (runFrom st xs).2 ++ (runFrom (runFrom st xs).1 ys).2) := by
  induction xs generalizing st with
  | nil => simp
  | cons x xs ih =>
    simp only [List.cons_append, runFrom_cons, ih, List.append_assoc]

/-- While the block is open, lines with no marker and no closing tag are
appended to the buffer one after another, with no effects. -/
theorem runFrom_collect (body : List (List Char)) (f : List Char)
    (buf : List (List Char))
    (h : ∀ l ∈ body, findMarker l = none ∧ subL l svgCloseTag = false) :
    runFrom { current_filename := some f, current_svg := buf, in_svg := true } body =
      ({ current_filename := some f, current_svg := buf ++ body, in_svg := true }, []) := by
  induction body generalizing buf with
  | nil => simp
  | cons l ls ih =>
    have hl := h l (List.mem_cons_self l ls)
    rw [runFrom_cons, processLine_collect _ hl.1 rfl hl.2]
    simp only [ih (buf ++ [l]) (fun x hx => h x (List.mem_cons_of_mem _ hx)),
      List.append_assoc, List.singleton_append, List.nil_append]

/-- While no block is open, lines with no marker and no opening tag leave the
state unchanged and produce no effects. -/
theorem runFrom_gap (gap : List (List Char)) (st : ScanState)
    (hin : st.in_svg = false)
    (h : ∀ l ∈ gap, findMarker l = none ∧ subL l svgOpenTag = false) :
    runFrom st gap = (st, []) := by
  induction gap with
  | nil => simp
  | cons l ls ih =>
    have hl := h l (List.mem_cons_self l ls)
    rw [runFrom_cons, processLine_skip st hl.1 hl.2 hin]
    simp only [ih (fun x hx => h x (List.mem_cons_of_mem _ hx)), List.nil_append]

/-- While no block is open, a run over lines none of which contains an
opening tag produces no effects and ends with no block open (marker lines
may still update the pending filename). -/
theorem runFrom_noSvg (ls : List (List Char)) (st : ScanState)
    (hin : st.in_svg = false)
    (h : ∀ l ∈ ls, subL l svgOpenTag = false) :
    (runFrom st ls).2 = [] ∧ (runFrom st ls).1.in_svg = false := by
  induction ls generalizing st with
  | nil => simp [hin]
  | cons l ls ih =>
    have hl := h l (List.mem_cons_self l ls)
    have htail : ∀ x ∈ ls, subL x svgOpenTag = false :=
      fun x hx => h x (List.mem_cons_of_mem _ hx)
    rw [runFrom_cons]
    cases hm : findMarker l with
    | some f =>
      rw [processLine_marker_plain st hm hl]
      simpa using ih ⟨some f, st.current_svg, st.in_svg⟩ hin htail
    | none =>
      rw [processLine_skip st hm hl hin]
      simpa using ih st hin htail

/-! Trace-projection lemmas. -/

theorem writesOf_append (es es' : List Effect) :
    writesOf (es ++ es') = writesOf es ++ writesOf es' := by
  simp [writesOf]

theorem consoleOf_append (es es' : List Effect) :
    consoleOf (es ++ es') = consoleOf es ++ consoleOf es' := by
  simp [consoleOf]

@[simp]
theorem writesOf_nil : writesOf [] = [] := rfl

@[simp]
theorem writesOf_cons_fileWrite (f c : List Char) (es : List Effect) :
    writesOf (Effect.fileWrite f c :: es) = (f, c) :: writesOf es := rfl

@[simp]
theorem writesOf_cons_consolePrint (m : List Char) (es : List Effect) :
    writesOf (Effect.consolePrint m :: es) = writesOf es := rfl

@[simp]
theorem consoleOf_nil : consoleOf [] = [] := rfl

@[simp]
theorem consoleOf_cons_fileWrite (f c : List Char) (es : List Effect) :
    consoleOf (Effect.fileWrite f c :: es) = consoleOf es := rfl

@[simp]
theorem consoleOf_cons_consolePrint (m : List Char) (es : List Effect) :
    consoleOf (Effect.consolePrint m :: es) = m :: consoleOf es := rfl

/-- Body-lines side condition extracted from `segWf`. -/
theorem segWf_body {body : List (List Char)}
    (h : body.all (fun l => decide (findMarker l = none) && !subL l svgCloseTag) = true) :
    ∀ l ∈ body, findMarker l = none ∧ subL l svgCloseTag = false := by
  intro l hl
  have := (List.all_eq_true.mp h) l hl
  simp only [Bool.and_eq_true, decide_eq_true_eq, Bool.not_eq_true'] at this
  exact this

/-- Processing one well-formed segment from the idle state writes exactly its
block under its marker's filename, prints the confirmation, and returns to
the idle state. -/
theorem runFrom_seg (f : List Char) (b : BlockForm) (h : segWf (f, b) = true) :
    runFrom initState (segLines (f, b)) =
      (initState,
       [Effect.fileWrite f (blockText b),
        Effect.consolePrint (createdMsg f)]) := by
  cases b with
  | sameLine b =>
    simp only [segWf, Bool.and_eq_true, decide_eq_true_eq] at h
    obtain ⟨⟨⟨hm, hidx⟩, ho⟩, hc⟩ := h
    rw [segLines, runFrom_cons, processLine_marker_closed initState hm ho hc]
    simp [blockText, hidx, List.drop_left]
  | oneLineAfter b =>
    simp only [segWf, Bool.and_eq_true, decide_eq_true_eq, Bool.not_eq_true'] at h
    obtain ⟨⟨⟨⟨hm, hmo⟩, hbm⟩, ho⟩, hc⟩ := h
    rw [segLines, runFrom_cons, processLine_marker_plain initState hm hmo]
    rw [runFrom_cons, processLine_open_closed _ hbm ho rfl rfl hc]
    simp [blockText]
  | spanFromMarker b0 body c =>
    simp only [segWf, Bool.and_eq_true, decide_eq_true_eq, Bool.not_eq_true'] at h
    obtain ⟨⟨⟨⟨⟨⟨hm, hidx⟩, ho⟩, hc0⟩, hbody⟩, hcm⟩, hcc⟩ := h
    rw [segLines, runFrom_cons, processLine_marker_open initState hm ho hc0]
    rw [runFrom_append]
    rw [runFrom_collect body f _ (segWf_body hbody)]
    simp only [runFrom_cons, runFrom_nil]
    rw [processLine_close _ hcm rfl hcc]
    simp [blockText, hidx, List.drop_left]
  | multi o body c =>
    simp only [segWf, Bool.and_eq_true, decide_eq_true_eq, Bool.not_eq_true'] at h
    obtain ⟨⟨⟨⟨⟨⟨⟨hm, hmo⟩, hom⟩, ho⟩, hoc⟩, hbody⟩, hcm⟩, hcc⟩ := h
    rw [segLines, runFrom_cons, processLine_marker_plain initState hm hmo]
    rw [runFrom_cons, processLine_open _ hom ho rfl rfl hoc]
    rw [runFrom_append]
    rw [runFrom_collect body f _ (segWf_body hbody)]
    simp only [runFrom_cons, runFrom_nil]
    rw [processLine_close _ hcm rfl hcc]
    simp [blockText]

/-- Core of the splitting theorem: a run over well-formed segments returns to
the idle state and its writes are exactly the expected pairs, in order. -/
theorem runFrom_sourceLines (ps : List (List Char × BlockForm))
    (h : ∀ p ∈ ps, segWf p = true) :
    (runFrom initState (sourceLines ps)).1 = initState ∧
    writesOf (runFrom initState (sourceLines ps)).2 =
      ps.map (fun p => (p.1, blockText p.2)) := by
  induction ps with
  | nil => simp [sourceLines]
  | cons p ps ih =>
    obtain ⟨f, b⟩ := p
    have hp := h _ (List.mem_cons_self _ ps)
    have htail := ih (fun x hx => h x (List.mem_cons_of_mem _ hx))
    simp only [sourceLines, List.map_cons, List.flatten_cons] at htail ⊢
    rw [runFrom_append, runFrom_seg f b hp]
    exact ⟨htail.1, by simp [writesOf_append, htail.2]⟩

/-! Soundness lemmas for the scanner state, per line and per run. -/

/-- The flag can only become set by a line holding an opening tag. -/
theorem step_insvg_sound (st : ScanState) (l : List Char)
    (h : (processLine st l).1.in_svg = true) :
    st.in_svg = true ∨ subL l svgOpenTag = true := by
  unfold processLine at h
  repeat' split at h <;> simp_all

/-- The filename can only become set by a line matched by the marker regex. -/
theorem step_filename_sound (st : ScanState) (l : List Char)
    (h : (processLine st l).1.current_filename.isSome = true) :
    st.current_filename.isSome = true ∨ (findMarker l).isSome = true := by
  unfold processLine at h
  repeat' split at h <;> simp_all

/-- Whenever the flag is set, a filename is pending; this is preserved by
every line. -/
theorem step_insvg_filename (st : ScanState) (l : List Char)
    (hst : st.in_svg = true → st.current_filename.isSome = true)
    (h : (processLine st l).1.in_svg = true) :
    (processLine st l).1.current_filename.isSome = true := by
  unfold processLine at h ⊢
  repeat' split <;> simp_all

/-- Run version of `step_insvg_sound`. -/
theorem run_insvg_sound (ls : List (List Char)) (st : ScanState)
    (h : (runFrom st ls).1.in_svg = true) :
    st.in_svg = true ∨ ∃ l ∈ ls, subL l svgOpenTag = true := by
  induction ls generalizing st with
  | nil => simp only [runFrom_nil] at h; exact Or.inl h
  | cons l ls ih =>
    rw [runFrom_cons] at h
    rcases ih (processLine st l).1 h with h1 | ⟨x, hx, hx2⟩
    · rcases step_insvg_sound st l h1 with h2 | h2
      · exact Or.inl h2
      · exact Or.inr ⟨l, List.mem_cons_self l ls, h2⟩
    · exact Or.inr ⟨x, List.mem_cons_of_mem _ hx, hx2⟩

/-- Run version of `step_filename_sound`. -/
theorem run_filename_sound (ls : List (List Char)) (st : ScanState)
    (h : (runFrom st ls).1.current_filename.isSome = true) :
    st.current_filename.isSome = true ∨ ∃ l ∈ ls, (findMarker l).isSome = true := by
  induction ls generalizing st with
  | nil => simp only [runFrom_nil] at h; exact Or.inl h
  | cons l ls ih =>
    rw [runFrom_cons] at h
    rcases ih (processLine st l).1 h with h1 | ⟨x, hx, hx2⟩
    · rcases step_filename_sound st l h1 with h2 | h2
      · exact Or.inl h2
      · exact Or.inr ⟨l, List.mem_cons_self l ls, h2⟩
    · exact Or.inr ⟨x, List.mem_cons_of_mem _ hx, hx2⟩

/-- Run version of `step_insvg_filename`. -/
theorem run_insvg_filename (ls : List (List Char)) (st : ScanState)
    (hst : st.in_svg = true → st.current_filename.isSome = true)
    (h : (runFrom st ls).1.in_svg = true) :
    (runFrom st ls).1.current_filename.isSome = true := by
  induction ls generalizing st with
  | nil => simp only [runFrom_nil] at h ⊢; exact hst h
  | cons l ls ih =>
    rw [runFrom_cons] at h ⊢
    exact ih (processLine st l).1 (step_insvg_filename st l hst) h

/-! Correspondence of console prints and file writes. -/

/-- Every line contributes either no effects or exactly one write followed by
its confirmation print. -/
theorem consoleOf_processLine (st : ScanState) (l : List Char) :
    consoleOf (processLine st l).2 =
      (writesOf (processLine st l).2).map (fun w => createdMsg w.1) := by
  unfold processLine
  repeat' split
  all_goals rfl

/-- Over a whole run, the confirmation prints are exactly the writes' names,
in order. -/
theorem consoleOf_runFrom (ls : List (List Char)) (st : ScanState) :
    consoleOf (runFrom st ls).2 =
      (writesOf (runFrom st ls).2).map (fun w => createdMsg w.1) := by
  induction ls generalizing st with
  | nil => simp
  | cons l ls ih =>
    rw [runFrom_cons]
    simp only [consoleOf_append, writesOf_append, List.map_append,
      consoleOf_processLine, ih]

/-! Path lemmas. -/

theorem normAux_append (xs ys : List (List Char)) (acc : List (List Char)) :
    normAux acc (xs ++ ys) = normAux (normAux acc xs) ys := by
  induction xs generalizing acc with
  | nil => rfl
  | cons c cs ih =>
    simp only [List.cons_append, normAux]
    split_ifs <;> apply ih

theorem normAux_no_dotdot (cs : List (List Char)) (acc : List (List Char))
    (h : chars ".." ∉ cs) :
    normAux acc cs = acc ++ cs.filter (fun c => decide (¬(c = chars "." ∨ c = []))) := by
  induction cs generalizing acc with
  | nil => simp [normAux]
  | cons c cs ih =>
    have hc : c ≠ chars ".." := fun hc => h (hc ▸ List.mem_cons_self c cs)
    have htail : chars ".." ∉ cs := fun hx => h (List.mem_cons_of_mem _ hx)
    simp only [normAux, if_neg hc]
    by_cases h2 : c = chars "." ∨ c = ([] : List Char)
    · rw [if_pos h2, ih acc htail]
      rcases h2 with h2 | h2 <;> simp [List.filter_cons, h2]
    · rw [if_neg h2, ih (acc ++ [c]) htail]
      have h3 : ¬c = chars "." ∧ ¬c = ([] : List Char) := by tauto
      simp [List.filter_cons, h3.1, h3.2]

theorem leadsWith_append (A B : List (List Char)) :
    leadsWith (A ++ B) A = true := by
  induction A with
  | nil => cases B <;> rfl
  | cons x A ih => simp [leadsWith, ih]

/-! Filesystem lemma: the result of a write list at a filename is the last
write to it, if any, else the prior content. -/

theorem applyW_eq (ws : List (List Char × List Char))
    (fs : List Char → Option (List Char)) (fn : List Char) :
    applyW fs ws fn =
      match lastMatch ws fn with
      | some c => some c
      | none => fs fn := by
  induction ws generalizing fs with
  | nil => rfl
  | cons p ws ih =>
    show applyW (Function.update fs p.1 (some p.2)) ws fn = _
    rw [ih]
    cases hlm : lastMatch ws fn with
    | some c => simp [lastMatch, hlm]
    | none =>
      simp only [lastMatch, hlm, Function.update_apply]
      split_ifs <;> rfl

/-! Claim theorems. -/

/-- C1: For every well-formed source text containing N marker-comment/SVG-block
pairs, each block either fully on one line or spanning multiple lines, running
the splitter creates exactly N output files, in encounter order, each named by
the filename captured from its marker and each containing exactly the captured
block text. -/
theorem C1_splitter_writes_all_blocks (ps : List (List Char × BlockForm))
    (h : ∀ p ∈ ps, segWf p = true) :
    writesRun (sourceLines ps) = ps.map (fun p => (p.1, blockText p.2)) := by
  have hcore := runFrom_sourceLines ps h
  unfold writesRun programTrace
  rw [writesOf_append, hcore.2]
  simp

/-- Witness for C1 at the specification's end-to-end example: a one-line block
and a block opening on its marker's line and spanning further lines. -/
theorem C1_splitter_writes_all_blocks_w :
    writesRun (sourceLines
      [(chars "a.svg", BlockForm.oneLineAfter (chars "<svg x=\"1\"><path/></svg>")),
       (chars "b.svg", BlockForm.spanFromMarker (chars "<svg x=\"2\">")
          [chars "<path/>"] (chars "</svg>"))]) =
      List.map (fun p => (p.1, blockText p.2))
        [(chars "a.svg", BlockForm.oneLineAfter (chars "<svg x=\"1\"><path/></svg>")),
         (chars "b.svg", BlockForm.spanFromMarker (chars "<svg x=\"2\">")
            [chars "<path/>"] (chars "</svg>"))] :=
  C1_splitter_writes_all_blocks _ (by decide)

/-- C2 counterexample: on a line holding a marker, an opening tag and a
closing tag with trailing text after the closing tag, the script writes the
text from the opening tag through the end of the line, not the tag-to-tag
substring the claim asserts (the trailing text is kept). -/
theorem C2_cex :
    writesRun [chars "<!-- a.svg --><svg></svg>X"] =
      [(chars "a.svg", chars "<svg></svg>X")] ∧
    specTagToTagText (chars "<!-- a.svg --><svg></svg>X") = chars "<svg></svg>" ∧
    (chars "<svg></svg>X" : List Char) ≠ chars "<svg></svg>" := by
  decide

/-- C2 (amended): for every line holding a marker comment, an opening tag and
a closing tag, the splitter immediately writes a one-line file named by the
capture whose content is exactly the line from the first opening tag through
the end of the line: the marker text before the tag is excluded, but text
after the closing tag, if any, is kept. -/
theorem C2_same_line_block (st : ScanState) (l f : List Char)
    (hm : findMarker l = some f) (ho : subL l svgOpenTag = true)
    (hc : subL l svgCloseTag = true) :
    processLine st l =
      (initState,
       [Effect.fileWrite f (l.drop (idxSub l svgOpenTag)),
        Effect.consolePrint (createdMsg f)]) :=
  processLine_marker_closed st hm ho hc

/-- Witness for the amended C2. -/
theorem C2_same_line_block_w :
    processLine initState (chars "<!-- p.svg --><svg></svg>") =
      (initState,
       [Effect.fileWrite (chars "p.svg")
          ((chars "<!-- p.svg --><svg></svg>").drop
            (idxSub (chars "<!-- p.svg --><svg></svg>") svgOpenTag)),
        Effect.consolePrint (createdMsg (chars "p.svg"))]) :=
  C2_same_line_block initState _ _ (by decide) (by decide) (by decide)

/-- C3 counterexample: after a line holding an opening tag with no marker
pending, an opening tag has been seen whose closing tag has not, yet the
flag is false, refuting the claimed equivalence. -/
theorem C3_cex :
    openUnclosed [chars "<svg>"] = true ∧
    (runFrom initState [chars "<svg>"]).1.in_svg = false := by
  decide

/-- C3 (amended): the sound directions of the invariant.  At every point of
the scan, if the flag is set then some processed line held an opening tag and
a filename is pending, and if a filename is pending then some processed line
matched the marker pattern.  The converses fail: an unmarked opening tag does
not set the flag, and a superseded marker's block is never written. -/
theorem C3_state_sound (ls : List (List Char)) :
    ((runFrom initState ls).1.in_svg = true →
      (∃ l ∈ ls, subL l svgOpenTag = true) ∧
      (runFrom initState ls).1.current_filename.isSome = true) ∧
    ((runFrom initState ls).1.current_filename.isSome = true →
      ∃ l ∈ ls, (findMarker l).isSome = true) := by
  constructor
  · intro h
    refine ⟨?_, run_insvg_filename ls initState (by simp [initState]) h⟩
    rcases run_insvg_sound ls initState h with h1 | h1
    · simp [initState] at h1
    · exact h1
  · intro h
    rcases run_filename_sound ls initState h with h1 | h1
    · simp [initState] at h1
    · exact h1

/-- Witness for the amended C3, on an input that sets both state fields. -/
theorem C3_state_sound_w :
    ((∃ l ∈ [chars "<!-- a.svg -->", chars "<svg>"], subL l svgOpenTag = true) ∧
      (runFrom initState [chars "<!-- a.svg -->", chars "<svg>"]).1.current_filename.isSome
        = true) ∧
    (∃ l ∈ [chars "<!-- a.svg -->", chars "<svg>"], (findMarker l).isSome = true) :=
  ⟨(C3_state_sound [chars "<!-- a.svg -->", chars "<svg>"]).1 (by decide),
   (C3_state_sound [chars "<!-- a.svg -->", chars "<svg>"]).2 (by decide)⟩

/-- C4 counterexample: the marker regex happily captures a filename holding a
parent-directory reference; the script then writes through the joined path,
which resolves to a location outside the output directory. -/
theorem C4_cex :
    (chars "../evil.svg", chars "<svg></svg>") ∈
        writesRun [chars "<!-- ../evil.svg --><svg></svg>"] ∧
    withinDir (splitComps (chars "/repo/icons"))
        (joinedPath (splitComps (chars "/repo/icons")) (chars "../evil.svg")) = false := by
  decide

/-- C4 (amended): every detected block is written to the join of the output
directory and the captured filename; when the captured filename is not
absolute and holds no parent-directory component, that path lies inside the
output directory (but a capture can hold such components and then escapes). -/
theorem C4_output_path (ls : List (List Char)) (dir : List (List Char))
    (f c : List Char) (hw : (f, c) ∈ writesRun ls)
    (habs : startsL f (chars "/") = false)
    (hdd : chars ".." ∉ splitComps f) :
    withinDir dir (joinedPath dir f) = true := by
  unfold withinDir joinedPath
  rw [if_neg (by simp [habs])]
  unfold normPath
  rw [normAux_append, normAux_no_dotdot _ _ hdd]
  exact leadsWith_append _ _

/-- Witness for the amended C4. -/
theorem C4_output_path_w :
    withinDir (splitComps (chars "/repo/icons"))
      (joinedPath (splitComps (chars "/repo/icons")) (chars "a.svg")) = true :=
  C4_output_path [chars "<!-- a.svg --><svg></svg>"] (splitComps (chars "/repo/icons"))
    (chars "a.svg") (chars "<svg></svg>") (by decide) (by decide) (by decide)

/-- C5: a marker line followed, possibly after idle lines, by an opening-tag
line, with content continuing until a closing-tag line, produces one file
named by the marker whose content is exactly the lines from the opening-tag
line through the closing-tag line, joined with newline separators. -/
theorem C5_multiline_block (M o c f : List Char) (gap body : List (List Char))
    (hM : findMarker M = some f) (hMo : subL M svgOpenTag = false)
    (hgap : ∀ l ∈ gap, findMarker l = none ∧ subL l svgOpenTag = false)
    (hom : findMarker o = none) (ho : subL o svgOpenTag = true)
    (hoc : subL o svgCloseTag = false)
    (hbody : ∀ l ∈ body, findMarker l = none ∧ subL l svgCloseTag = false)
    (hcm : findMarker c = none) (hcc : subL c svgCloseTag = true) :
    writesRun (M :: (gap ++ o :: (body ++ [c]))) =
      [(f, joinLines (o :: (body ++ [c])))] := by
  unfold writesRun programTrace
  rw [runFrom_cons, processLine_marker_plain initState hM hMo]
  rw [runFrom_append, runFrom_gap gap _ rfl hgap]
  rw [runFrom_cons, processLine_open _ hom ho rfl rfl hoc]
  rw [runFrom_append, runFrom_collect body f _ hbody]
  rw [runFrom_cons, processLine_close _ hcm rfl hcc]
  simp

/-- Witness for C5 at the specification's multi-line example, with one idle
line between the marker and the opening tag. -/
theorem C5_multiline_block_w :
    writesRun (chars "<!-- b.svg -->" ::
        ([chars ""] ++ chars "<svg x=\"2\">" :: ([chars "<path/>"] ++ [chars "</svg>"]))) =
      [(chars "b.svg",
        joinLines (chars "<svg x=\"2\">" :: ([chars "<path/>"] ++ [chars "</svg>"])))] :=
  C5_multiline_block (chars "<!-- b.svg -->") (chars "<svg x=\"2\">") (chars "</svg>")
    (chars "b.svg") [chars ""] [chars "<path/>"]
    (by decide) (by decide) (by decide) (by decide) (by decide) (by decide)
    (by decide) (by decide) (by decide)

/-- C6: the console output is exactly one confirmation line per written file,
naming it, in the order the blocks are encountered, followed by the fixed
completion message after all lines are processed. -/
theorem C6_console_order (ls : List (List Char)) :
    consoleOf (programTrace ls) =
      (writesOf (programTrace ls)).map (fun w => createdMsg w.1) ++ [finalMsg] := by
  unfold programTrace
  rw [consoleOf_append, writesOf_append, consoleOf_runFrom]
  simp

/-- C7: running the splitter twice on the same unchanged source yields the
same files as running it once: each write overwrites, so applying the run's
write list to the resulting filesystem changes nothing. -/
theorem C7_rerun_identical (ls : List (List Char))
    (fs : List Char → Option (List Char)) (fn : List Char) :
    applyW (applyW fs (writesRun ls)) (writesRun ls) fn =
      applyW fs (writesRun ls) fn := by
  rw [applyW_eq]
  cases hlm : lastMatch (writesRun ls) fn with
  | some c => rw [applyW_eq, hlm]
  | none => rfl

/-- C8 counterexample: the second marker is never followed by an opening tag
(neither its own line nor the line after holds one), yet the run writes a
file for it, because the marker appeared inside an open block and the block
is finalized under the overwritten filename. -/
theorem C8_cex :
    (findMarker (chars "<!-- b.svg -->")).isSome = true ∧
    subL (chars "<!-- b.svg -->") svgOpenTag = false ∧
    subL (chars "</svg>") svgOpenTag = false ∧
    writesRun [chars "<!-- a.svg -->", chars "<svg>", chars "<!-- b.svg -->",
        chars "</svg>"] =
      [(chars "b.svg", chars "<svg>\n</svg>")] := by
  decide

/-- C8 (amended): a marker encountered while no block is open and never
followed by an opening tag produces no output file and no error: the lines
from the marker onward contribute no writes, the pending filename is
abandoned at end of input, and the completion message is still printed.
(A marker encountered inside an open block instead names that block's file.) -/
theorem C8_abandoned_marker (pre post : List (List Char)) (m : List Char)
    (hidle : (runFrom initState pre).1.in_svg = false)
    (hm : (findMarker m).isSome = true)
    (hmo : subL m svgOpenTag = false)
    (hpost : ∀ l ∈ post, subL l svgOpenTag = false) :
    writesRun (pre ++ m :: post) = writesRun pre ∧
    (programTrace (pre ++ m :: post)).getLast? =
      some (Effect.consolePrint finalMsg) := by
  have hall : ∀ l ∈ m :: post, subL l svgOpenTag = false := by
    intro l hl
    rcases List.mem_cons.mp hl with h | h
    · exact h ▸ hmo
    · exact hpost l h
  have hno := runFrom_noSvg (m :: post) (runFrom initState pre).1 hidle hall
  constructor
  · unfold writesRun programTrace
    rw [runFrom_append]
    simp [writesOf_append, hno.1]
  · unfold programTrace
    exact List.getLast?_concat _

/-- Witness for the amended C8. -/
theorem C8_abandoned_marker_w :
    writesRun ([] ++ chars "<!-- a.svg -->" :: [chars "hello"]) = writesRun [] ∧
    (programTrace ([] ++ chars "<!-- a.svg -->" :: [chars "hello"])).getLast? =
      some (Effect.consolePrint finalMsg) :=
  C8_abandoned_marker [] [chars "hello"] (chars "<!-- a.svg -->")
    (by decide) (by decide) (by decide) (by decide)

/-- C9: a line holding an opening tag, encountered with no marker on the line,
no pending filename and no open block, starts no block, produces no output,
and leaves the scanner state unchanged, so later marker-and-block pairs are
processed as from a fresh state. -/
theorem C9_unmarked_tag_ignored (st : ScanState) (l : List Char)
    (hm : findMarker l = none) (ho : subL l svgOpenTag = true)
    (hf : st.current_filename = none) (hin : st.in_svg = false) :
    processLine st l = (st, []) :=
  processLine_idle st hm hf hin

/-- Witness for C9. -/
theorem C9_unmarked_tag_ignored_w :
    processLine initState (chars "<svg>") = (initState, []) :=
  C9_unmarked_tag_ignored initState (chars "<svg>") (by decide) (by decide) rfl rfl

/-- C10: a marker line with no opening tag, encountered while a block is open,
is not appended to the buffer, replaces the pending filename with its capture,
and leaves the block open, whatever else the line holds (in particular a
closing tag on such a line is never recognized). -/
theorem C10_marker_inside_block (st : ScanState) (l f : List Char)
    (hin : st.in_svg = true) (hm : findMarker l = some f)
    (ho : subL l svgOpenTag = false) :
    processLine st l =
      ({ current_filename := some f, current_svg := st.current_svg,
         in_svg := true }, []) := by
  rw [processLine_marker_plain st hm ho, hin]

/-- Witness for C10, on a marker line that even holds a closing tag. -/
theorem C10_marker_inside_block_w :
    processLine ⟨some (chars "a.svg"), [chars "<svg>"], true⟩
        (chars "<!-- b.svg --></svg>") =
      ({ current_filename := some (chars "b.svg"),
         current_svg := [chars "<svg>"], in_svg := true }, []) :=
  C10_marker_inside_block ⟨some (chars "a.svg"), [chars "<svg>"], true⟩
    (chars "<!-- b.svg --></svg>") (chars "b.svg") rfl (by decide) (by decide)

end SplitIcons
